import Mathlib

/-
Verification of the policy subsystem of the step CLI: the six policy
subcommand actions (cn-regex, uri-constraint, uri-regex, email-regex,
dns-regex, principal-regex) embedded from the Go sources, together with
the constraint-matching engine they configure, modelled from the design
specification where the engine's code is not among the given files.
-/

namespace StepPolicy

/-- Lowercase a list of characters (ASCII-style, via `Char.toLower`). -/
def lowercase (cs : List Char) : List Char := cs.map Char.toLower

/-- Does the list `p` occur as a prefix of `s`? -/
def startsWithL : List Char → List Char → Bool
  | [], _ => true
  | _ :: _, [] => false
  | p :: ps, c :: cs => p == c && startsWithL ps cs

/-- Does the list `p` occur as a suffix of `s`? -/
def isSuffixL (p s : List Char) : Bool := startsWithL p.reverse s.reverse

/-- Does the list `sub` occur as a contiguous sublist of `s`? -/
def containsL (sub : List Char) : List Char → Bool
  | [] => sub.isEmpty
  | c :: cs => startsWithL sub (c :: cs) || containsL sub cs

/-- Substring containment on strings, used to check that an error message
names a branch and a pattern kind. -/
def strContains (s sub : String) : Bool := containsL sub.data s.data

/-- Modelled from the spec: the DNS matcher of §4.1 is not among the given
files. A raw value starting with the wildcard label matches any name that,
case-insensitively, ends with a dot followed by the rest of the pattern
(so at least one label precedes it); a plain raw value is a
case-insensitive exact match, per DNS conventions. -/
def dnsMatchL (raw name : List Char) : Bool :=
  match raw with
  | '*' :: '.' :: rest => isSuffixL (lowercase ('.' :: rest)) (lowercase name)
  | _ => lowercase raw == lowercase name

/-- String wrapper for `dnsMatchL`. -/
def dnsMatch (raw name : String) : Bool := dnsMatchL raw.data name.data

/-- Modelled from the spec: the email matcher of §4.1 is not among the given
files. A raw value beginning with an at sign is a case-insensitive suffix
(domain-only) match; otherwise a case-insensitive exact match on the whole
address. -/
def emailMatchL (raw addr : List Char) : Bool :=
  match raw with
  | '@' :: _ => isSuffixL (lowercase raw) (lowercase addr)
  | _ => lowercase raw == lowercase addr

/-- Split a character list at the first occurrence of the literal
scheme separator (colon, slash, slash), returning the parts before and
after it, or `none` when the separator does not occur. -/
def splitScheme : List Char → Option (List Char × List Char)
  | [] => none
  | ':' :: '/' :: '/' :: rest => some ([], rest)
  | c :: rest => (splitScheme rest).map (fun p => (c :: p.1, p.2))

/-- A candidate URI decomposed into scheme, host and path. -/
structure URIParts where
  scheme : List Char
  host : List Char
  path : List Char
deriving DecidableEq

/-- Modelled from the spec: parsing a candidate URI identifier into
scheme, host and path (§4.1); the scheme must be nonempty and separated
by the scheme separator, the host runs to the first slash, the path is
the remainder (possibly empty). -/
def parseURI (s : String) : Option URIParts :=
  match splitScheme s.data with
  | none => none
  | some (sch, rest) =>
    if sch.isEmpty then none
    else
      let host := rest.takeWhile (fun c => c != '/')
      let path := rest.drop host.length
      some ⟨sch, host, path⟩

/-- A parsed structured URI constraint (§4.1): domain-only, scheme and
host, scheme and host and exact path, or scheme and host and path
whose trailing star makes it a path-prefix constraint. -/
inductive URIPattern where
  | domain (host : List Char)
  | schemeHost (scheme host : List Char)
  | schemeHostPath (scheme host path : List Char)
  | schemeHostPfx (scheme host pfx : List Char)
deriving DecidableEq

/-- Modelled from the spec: the structured URI constraint grammar of §4.1,
whose parser is not among the given files. A bare string with no scheme
separator is domain-only; otherwise the scheme must be nonempty, and the
part after the host either is empty (any path), ends in slash-star
(path-prefix match) or is an exact path; an empty scheme is a parse
failure (a configuration-time error, not a silent non-match). -/
def parseURIConstraint (raw : String) : Option URIPattern :=
  match splitScheme raw.data with
  | none => some (.domain raw.data)
  | some (sch, rest) =>
    if sch.isEmpty then none
    else
      let host := rest.takeWhile (fun c => c != '/')
      let path := rest.drop host.length
      if path.isEmpty then some (.schemeHost sch host)
      else if isSuffixL ['/', '*'] path then some (.schemeHostPfx sch host path.dropLast)
      else some (.schemeHostPath sch host path)

/-- Modelled from the spec: structured URI matching (§4.1). Scheme and
host comparison is case-insensitive and path comparison is
case-sensitive; the domain-only form ignores scheme and path and treats
the host like a DNS pattern (wildcard-capable); the prefix form keeps the
trailing slash, so the candidate path must start with the path and a
slash. -/
def uriConstraintMatches : URIPattern → URIParts → Bool
  | .domain d, u => dnsMatchL d u.host
  | .schemeHost s h, u =>
      lowercase s == lowercase u.scheme && lowercase h == lowercase u.host
  | .schemeHostPath s h p, u =>
      lowercase s == lowercase u.scheme && lowercase h == lowercase u.host && p == u.path
  | .schemeHostPfx s h p, u =>
      lowercase s == lowercase u.scheme && lowercase h == lowercase u.host && startsWithL p u.path

/-- Modelled from the spec: the raw-string entry point of the structured
URI matcher; an unparseable pattern or candidate matches nothing (such
patterns are rejected at add time, §7). -/
def uriPatternMatches (raw uri : String) : Bool :=
  match parseURIConstraint raw, parseURI uri with
  | some pat, some u => uriConstraintMatches pat u
  | _, _ => false

/-- Split a character list on a separator character; the result always has
one more part than there are separators. -/
def splitOnChar (sep : Char) : List Char → List (List Char)
  | [] => [[]]
  | c :: cs =>
    let r := splitOnChar sep cs
    if c == sep then [] :: r
    else
      match r with
      | [] => [[c]]
      | h :: t => (c :: h) :: t

/-- Parse a decimal IPv4 component (one to three digits, value at most
255). -/
def parseDecByte (cs : List Char) : Option Nat :=
  if cs.isEmpty || decide (cs.length > 3) || !cs.all Char.isDigit then none
  else
    let n := cs.foldl (fun a c => a * 10 + (c.toNat - 48)) 0
    if n ≤ 255 then some n else none

/-- Parse a dotted-quad IPv4 address to its 32-bit numeric value. -/
def parseIPv4 (cs : List Char) : Option Nat :=
  match (splitOnChar '.' cs).mapM parseDecByte with
  | some [a, b, c, d] => some (((a * 256 + b) * 256 + c) * 256 + d)
  | _ => none

/-- Parse a nonempty all-digit decimal number. -/
def parseDecNat (cs : List Char) : Option Nat :=
  if cs.isEmpty || !cs.all Char.isDigit then none
  else some (cs.foldl (fun a c => a * 10 + (c.toNat - 48)) 0)

/-- Modelled from the spec: the IP-range matcher of §4.1 is not among the
given files; a raw value is either a single IPv4 address (exact match) or
a CIDR block, matching when the candidate agrees on the network prefix
bits. -/
def ipMatchL (raw v : List Char) : Bool :=
  match splitOnChar '/' raw with
  | [ip, bits] =>
    match parseIPv4 ip, parseDecNat bits, parseIPv4 v with
    | some p, some n, some a =>
        decide (n ≤ 32) && decide (p / 2 ^ (32 - n) = a / 2 ^ (32 - n))
    | _, _, _ => false
  | [ip] =>
    match parseIPv4 ip, parseIPv4 v with
    | some p, some a => p == a
    | _, _ => false
  | _ => false

/-- Abstract syntax of the basic regular-expression dialect used by the
regex pattern matchers. -/
inductive RE where
  | emp
  | eps
  | chr (c : Char)
  | any
  | cls (neg : Bool) (ranges : List (Char × Char))
  | alt (a b : RE)
  | cat (a b : RE)
  | star (a : RE)
deriving DecidableEq

/-- Does the expression accept the empty word? -/
def RE.nullable : RE → Bool
  | .emp => false
  | .eps => true
  | .chr _ => false
  | .any => false
  | .cls _ _ => false
  | .alt a b => a.nullable || b.nullable
  | .cat a b => a.nullable && b.nullable
  | .star _ => true

/-- Character-class membership, honouring negation. -/
def inCls (neg : Bool) (rs : List (Char × Char)) (c : Char) : Bool :=
  let mem := rs.any (fun r => decide (r.1 ≤ c) && decide (c ≤ r.2))
  if neg then !mem else mem

/-- Brzozowski derivative of a regular expression by one character. -/
def RE.deriv : RE → Char → RE
  | .emp, _ => .emp
  | .eps, _ => .emp
  | .chr d, c => if c == d then .eps else .emp
  | .any, _ => .eps
  | .cls n rs, c => if inCls n rs c then .eps else .emp
  | .alt a b, c => .alt (a.deriv c) (b.deriv c)
  | .cat a b, c =>
      if a.nullable then .alt (.cat (a.deriv c) b) (b.deriv c)
      else .cat (a.deriv c) b
  | .star a, c => .cat (a.deriv c) (.star a)

/-- Does the expression match the whole word? -/
def fullMatch (r : RE) (cs : List Char) : Bool := (cs.foldl RE.deriv r).nullable

/-- Does the expression match some prefix of the word? -/
def matchesSomePre (r : RE) : List Char → Bool
  | [] => r.nullable
  | c :: cs => r.nullable || matchesSomePre (r.deriv c) cs

/-- Does the expression match some substring of the word (unanchored
search)? -/
def searchFrom (r : RE) : List Char → Bool
  | [] => r.nullable
  | c :: cs => matchesSomePre r (c :: cs) || searchFrom r cs

/-- Does the expression match some suffix of the word? -/
def searchSuffix (r : RE) : List Char → Bool
  | [] => r.nullable
  | c :: cs => fullMatch r (c :: cs) || searchSuffix r cs

/-- Expansion of an escape character into an expression: the common
shorthand classes, any other escaped character standing for itself. -/
def escClass (c : Char) : RE :=
  match c with
  | 'd' => .cls false [('0', '9')]
  | 'w' => .cls false [('0', '9'), ('a', 'z'), ('A', 'Z'), ('_', '_')]
  | 's' => .cls false [(' ', ' '), ('\t', '\t'), ('\n', '\n'), ('\r', '\r')]
  | 'D' => .cls true [('0', '9')]
  | 'W' => .cls true [('0', '9'), ('a', 'z'), ('A', 'Z'), ('_', '_')]
  | 'S' => .cls true [(' ', ' '), ('\t', '\t'), ('\n', '\n'), ('\r', '\r')]
  | _ => .chr c

/-- Parse the items of a character class up to the closing bracket;
`none` on an unterminated class or a trailing bare backslash. -/
def parseClsItems : List Char → Option (List (Char × Char) × List Char)
  | [] => none
  | ']' :: rest => some ([], rest)
  | ['\\'] => none
  | '\\' :: c :: rest =>
      (parseClsItems rest).map (fun p => ((c, c) :: p.1, p.2))
  | c :: '-' :: ']' :: rest => some ([(c, c), ('-', '-')], rest)
  | c :: '-' :: d :: rest =>
      (parseClsItems rest).map (fun p => ((c, d) :: p.1, p.2))
  | c :: rest =>
      (parseClsItems rest).map (fun p => ((c, c) :: p.1, p.2))

/-- Apply trailing quantifier characters to a parsed atom. -/
def applyQuants (r : RE) : List Char → RE × List Char
  | '*' :: rest => applyQuants (.star r) rest
  | '+' :: rest => applyQuants (.cat r (.star r)) rest
  | '?' :: rest => applyQuants (.alt r .eps) rest
  | cs => (r, cs)

mutual

/-- Parse an alternation (fuel-bounded recursive descent). -/
def parseAlt : Nat → List Char → Option (RE × List Char)
  | 0, _ => none
  | fuel + 1, cs => do
    let (r, rest) ← parseCat fuel cs
    parseAltTail fuel r rest

/-- Parse the remaining bar-separated alternatives. -/
def parseAltTail : Nat → RE → List Char → Option (RE × List Char)
  | 0, _, _ => none
  | fuel + 1, acc, cs =>
    match cs with
    | '|' :: rest => do
      let (r, rest2) ← parseCat fuel rest
      parseAltTail fuel (.alt acc r) rest2
    | _ => some (acc, cs)

/-- Parse a concatenation of repeated atoms. -/
def parseCat : Nat → List Char → Option (RE × List Char)
  | 0, _ => none
  | fuel + 1, cs => parseCatTail fuel .eps cs

/-- Parse repeated atoms until the end, a closing parenthesis or a bar. -/
def parseCatTail : Nat → RE → List Char → Option (RE × List Char)
  | 0, _, _ => none
  | fuel + 1, acc, cs =>
    match cs with
    | [] => some (acc, [])
    | ')' :: _ => some (acc, cs)
    | '|' :: _ => some (acc, cs)
    | _ => do
      let (r, rest) ← parseRep fuel cs
      parseCatTail fuel (.cat acc r) rest

/-- Parse one atom with its quantifiers. -/
def parseRep : Nat → List Char → Option (RE × List Char)
  | 0, _ => none
  | fuel + 1, cs => do
    let (r, rest) ← parseAtom fuel cs
    pure (applyQuants r rest)

/-- Parse a single atom: a group, a character class, an escape, the dot,
or a literal character; a bare quantifier or stray bracket is a parse
failure. -/
def parseAtom : Nat → List Char → Option (RE × List Char)
  | 0, _ => none
  | fuel + 1, cs =>
    match cs with
    | [] => none
    | '(' :: rest => do
      let (r, rest2) ← parseAlt fuel rest
      match rest2 with
      | ')' :: rest3 => some (r, rest3)
      | _ => none
    | ')' :: _ => none
    | '|' :: _ => none
    | '*' :: _ => none
    | '+' :: _ => none
    | '?' :: _ => none
    | '[' :: '^' :: rest => do
      let (items, rem) ← parseClsItems rest
      some (.cls true items, rem)
    | '[' :: rest => do
      let (items, rem) ← parseClsItems rest
      some (.cls false items, rem)
    | ['\\'] => none
    | '\\' :: c :: rest => some (escClass c, rest)
    | '.' :: rest => some (.any, rest)
    | c :: rest => some (.chr c, rest)

end

/-- A parsed regex pattern: anchoring flags taken from a leading caret
and a trailing unescaped dollar, and the expression for the middle. -/
structure ParsedRegex where
  anchoredStart : Bool
  anchoredEnd : Bool
  re : RE
deriving DecidableEq

/-- Strip one trailing unescaped dollar anchor. -/
def stripEndAnchor (cs : List Char) : Bool × List Char :=
  match cs.reverse with
  | '$' :: c :: rest => if c == '\\' then (false, cs) else (true, (c :: rest).reverse)
  | ['$'] => (true, [])
  | _ => (false, cs)

/-- Modelled from the spec: the regex compiler of §4.1 is not among the
given files; the spec names no dialect, so a basic dialect is used, with
literals, the dot, classes, escapes, quantifiers, groups and
alternation, and with the caret and dollar anchors honoured at the ends
of the pattern. A syntax error yields `none` (an invalid regex, rejected
at add time per §7). -/
def parseRegexFull (s : String) : Option ParsedRegex :=
  let (aStart, cs1) :=
    match s.data with
    | '^' :: rest => (true, rest)
    | cs => (false, cs)
  let (aEnd, cs2) := stripEndAnchor cs1
  match parseAlt (16 * cs2.length + 16) cs2 with
  | some (r, []) => some ⟨aStart, aEnd, r⟩
  | _ => none

/-- Match a parsed regex against a word, honouring its anchors; without
anchors this is an unanchored substring search, as in the source regex
dialect. -/
def reMatches (p : ParsedRegex) (s : String) : Bool :=
  match p.anchoredStart, p.anchoredEnd with
  | true, true => fullMatch p.re s.data
  | true, false => matchesSomePre p.re s.data
  | false, true => searchSuffix p.re s.data
  | false, false => searchFrom p.re s.data

/-- Modelled from the spec: regex matching of a configured raw pattern
against a candidate value; a pattern that fails to parse matches nothing
(such patterns are rejected at add time, §7, so this case is
unreachable for configured rules). -/
def regexMatches (raw v : String) : Bool :=
  match parseRegexFull raw with
  | some p => reMatches p v
  | none => false

/-- The identifier kinds of the data model (§3). -/
inductive IdKind where
  | dns
  | email
  | uri
  | ipRange
  | sshPrincipal
deriving DecidableEq

/-- A candidate identifier checked at issuance time (§3). -/
structure Identifier where
  kind : IdKind
  value : String
deriving DecidableEq

/-- Modelled from the spec: the per-kind plain (non-regex) matcher
dispatch of §4.1; DNS names support literal and wildcard, emails
literal and domain-suffix, URIs the structured constraint grammar, IP
ranges CIDR or single-address, SSH principals exact strings. -/
def plainMatches (k : IdKind) (raw v : String) : Bool :=
  match k with
  | .dns => dnsMatch raw v
  | .email => emailMatchL raw.data v.data
  | .uri => uriPatternMatches raw v
  | .ipRange => ipMatchL raw.data v.data
  | .sshPrincipal => raw == v

/-- The rules configured for one (branch, allow or deny, kind) cell:
the plain patterns and the regex patterns, each an ordered list of raw
strings (§3). -/
structure KindRules where
  plain : List String := []
  rx : List String := []
deriving DecidableEq

/-- Modelled from the spec: `MatchAny` of §4.2, returning the first
structurally matching pattern of the cell for reporting (plain patterns
first, then regex patterns), or `none`. -/
def kindRulesMatch (k : IdKind) (r : KindRules) (v : String) : Option String :=
  match r.plain.find? (fun raw => plainMatches k raw v) with
  | some raw => some raw
  | none => r.rx.find? (fun raw => regexMatches raw v)

/-- Is any rule configured in the cell? -/
def KindRules.configured (r : KindRules) : Bool := !(r.plain.isEmpty && r.rx.isEmpty)

/-- The RuleList-set of one branch side (allow or deny), keyed by
identifier kind (§3). -/
structure BranchRules where
  dns : KindRules := ⟨[], []⟩
  email : KindRules := ⟨[], []⟩
  uri : KindRules := ⟨[], []⟩
  ip : KindRules := ⟨[], []⟩
  principal : KindRules := ⟨[], []⟩
deriving DecidableEq

/-- Select the cell of a kind. -/
def BranchRules.forKind (b : BranchRules) : IdKind → KindRules
  | .dns => b.dns
  | .email => b.email
  | .uri => b.uri
  | .ipRange => b.ip
  | .sshPrincipal => b.principal

/-- One policy branch: an allow side and a deny side (§3). -/
structure PolicyBranch where
  allow : BranchRules := {}
  deny : BranchRules := {}
deriving DecidableEq

/-- The outcome of an evaluation. -/
inductive Outcome where
  | allow
  | deny
deriving DecidableEq

/-- The decision for one identifier: the outcome and the matched
pattern's raw string when a pattern matched (§3). -/
structure Decision where
  outcome : Outcome
  matchedPattern : Option String
deriving DecidableEq

/-- Modelled from the spec: the single-identifier evaluation of §4.4,
which is not among the given files. The deny side of the identifier's
kind is checked first; any match is an immediate deny. Otherwise, a
configured allow side must match (default-deny-when-configured), and an
unconfigured allow side allows (default-allow-when-unconfigured). -/
def evaluateOne (pb : PolicyBranch) (i : Identifier) : Decision :=
  match kindRulesMatch i.kind (pb.deny.forKind i.kind) i.value with
  | some raw => ⟨.deny, some raw⟩
  | none =>
    let ka := pb.allow.forKind i.kind
    if ka.configured then
      match kindRulesMatch i.kind ka i.value with
      | some raw => ⟨.allow, some raw⟩
      | none => ⟨.deny, none⟩
    else ⟨.allow, none⟩

/-- Modelled from the spec: the aggregate evaluation of §4.4, denying a
request when any of its identifiers is denied and allowing it only when
all are allowed. -/
def evaluate (pb : PolicyBranch) (ids : List Identifier) : Outcome :=
  if ids.all (fun i => (evaluateOne pb i).outcome == .allow) then .allow else .deny

/-- Modelled from the spec: RuleList `Add` of §4.2, not among the given
files; adding an already-present raw value (case-sensitive comparison) is
a no-op reported through the changed flag, otherwise the value is
appended, preserving insertion order. -/
def addPattern (l : List String) (raw : String) : List String × Bool :=
  if l.contains raw then (l, false) else (l ++ [raw], true)

/-- Modelled from the spec: RuleList `Remove` of §4.2, not among the
given files; removing an absent raw value is a no-op with a false
changed flag, not an error. -/
def removePattern (l : List String) (raw : String) : List String × Bool :=
  if l.contains raw then (l.filter (fun x => x != raw), true) else (l, false)

/-- The pattern kinds configured by the six subcommands. -/
inductive PatKind where
  | cnRegex
  | dnsRegex
  | emailRegex
  | uriRegex
  | principalRegex
  | uriConstraint
deriving DecidableEq

/-- Modelled from the spec: the add-time well-formedness check of §7;
the structured URI constraint must parse, and each regex pattern kind
must compile in the regex dialect. -/
def patternValid (pk : PatKind) (raw : String) : Bool :=
  match pk with
  | .uriConstraint => (parseURIConstraint raw).isSome
  | _ => (parseRegexFull raw).isSome

/-- Modelled from the spec: the validating RuleList `Add` of §7, not
among the given files; a malformed pattern is rejected immediately with
a configuration error and no new rule list is produced, a well-formed
one is added with the idempotent `addPattern`. -/
def ruleAdd (pk : PatKind) (l : List String) (raw : String) :
    Except String (List String × Bool) :=
  if patternValid pk raw then .ok (addPattern l raw)
  else .error ("invalid pattern: " ++ raw)

/-- A mutation on one rule list: add or remove one raw value. -/
inductive ROp where
  | add (raw : String)
  | rem (raw : String)

/-- Apply one mutation, keeping only the resulting list. -/
def applyOp (l : List String) : ROp → List String
  | .add raw => (addPattern l raw).1
  | .rem raw => (removePattern l raw).1

/-- Apply a sequence of mutations from left to right. -/
def applyOps (l : List String) (ops : List ROp) : List String := ops.foldl applyOp l

/-- The X.509 rule-list fields touched by the six actions
(`policy.X509.Allow` and `policy.X509.Deny` in the Go sources). -/
structure X509Names where
  CommonNameRegex : List String := []
  UriConstraints : List String := []
  UriRegex : List String := []
  EmailRegex : List String := []
  DnsRegex : List String := []
deriving DecidableEq

/-- The SSH host rule-list fields touched by the actions. -/
structure SSHHostNames where
  DnsRegex : List String := []
  PrincipalRegex : List String := []
deriving DecidableEq

/-- The SSH user rule-list fields touched by the actions. -/
structure SSHUserNames where
  EmailRegex : List String := []
  PrincipalRegex : List String := []
deriving DecidableEq

/-- The X.509 branch of the policy document: allow and deny name sets. -/
structure X509Policy where
  Allow : X509Names := {}
  Deny : X509Names := {}
deriving DecidableEq

/-- The SSH host branch of the policy document. -/
structure SSHHostPolicy where
  Allow : SSHHostNames := {}
  Deny : SSHHostNames := {}
deriving DecidableEq

/-- The SSH user branch of the policy document. -/
structure SSHUserPolicy where
  Allow : SSHUserNames := {}
  Deny : SSHUserNames := {}
deriving DecidableEq

/-- The SSH section of the policy document: host and user branches. -/
structure SSHPolicy where
  Host : SSHHostPolicy := {}
  User : SSHUserPolicy := {}
deriving DecidableEq

/-- The policy document mutated by the actions, with the field paths of
the Go sources (`policy.X509...`, `policy.Ssh.Host...`,
`policy.Ssh.User...`). -/
structure Policy where
  X509 : X509Policy := {}
  Ssh : SSHPolicy := {}
deriving DecidableEq

/-- Modelled from the spec: helper `addOrRemoveArguments`, called by
every action but not among the given files; per §3 and §9 it adds each
argument not already present (preserving order) when the remove flag is
unset, and removes each present argument when it is set, both silently
ignoring the other case. -/
def addOrRemoveArguments (slice args : List String) (remove : Bool) : List String :=
  if remove then args.foldl (fun l a => (removePattern l a).1) slice
  else args.foldl (fun l a => (addPattern l a).1) slice

/-- The active policy branch of the command context
(`policycontext.IsX509Policy`, `IsSSHHostPolicy`, `IsSSHUserPolicy`);
`none` models a context with none of the three set, which the Go code
answers with a panic. -/
inductive PolicyContext where
  | x509
  | sshHost
  | sshUser
deriving DecidableEq

/-- The active list of the command context (`policycontext.IsAllow`,
`IsDeny`); `none` models neither being set (a panic in the Go code). -/
inductive ListSelector where
  | allowList
  | denyList
deriving DecidableEq

/-- The command-line inputs of one action invocation: the active policy
branch and list, the positional arguments, and the remove flag. -/
structure ActionCtx where
  pctx : Option PolicyContext
  lctx : Option ListSelector
  args : List String
  remove : Bool
deriving DecidableEq

/-- The ways an action returns an error, mirroring the Go code paths:
too few arguments, admin-client creation failure, policy retrieval
failure, an unsupported branch and kind combination, policy update
failure, and the panics on an unset context. -/
inductive ActionError where
  | tooFewArguments
  | clientError (msg : String)
  | policyError (msg : String)
  | unsupported (msg : String)
  | updateError (msg : String)
  | panicked (msg : String)
deriving DecidableEq

/-- The externally visible effects of an action, in order: creating the
admin client, retrieving the policy, and pushing a policy document to
the remote update endpoint. -/
inductive Effect where
  | createClient
  | retrievePolicy
  | pushPolicy (doc : Policy)
deriving DecidableEq

/-- The environment an action runs against: the result of admin-client
creation, of policy retrieval, and of the remote update as a function of
the document pushed. -/
structure Env where
  clientResult : Except String Unit
  policyResult : Except String Policy
  updateResult : Policy → Except String Policy

/-- The result of an action: the returned value or error, together with
the ordered trace of effects it performed. -/
abbrev ActionResult := Except ActionError Policy × List Effect

/-- The tail of every action: push the mutated document with
`updatePolicy`, recording the document in the trace, and wrap an update
failure. -/
def pushUpdate (env : Env) (doc : Policy) : ActionResult :=
  match env.updateResult doc with
  | .error e => (.error (.updateError e), [.createClient, .retrievePolicy, .pushPolicy doc])
  | .ok updated => (.ok updated, [.createClient, .retrievePolicy, .pushPolicy doc])

/-- Embedding of `commonNameRegexAction`
(src/command/ca/policy/actions/cn_regex.go): argument check, client
creation, policy retrieval, the branch and list switch mutating
`X509.Allow.CommonNameRegex` or `X509.Deny.CommonNameRegex`, and the
update. -/
def commonNameRegexAction (env : Env) (ctx : ActionCtx) : ActionResult :=
  if ctx.args.isEmpty then (.error .tooFewArguments, [])
  else
    match env.clientResult with
    | .error e => (.error (.clientError e), [.createClient])
    | .ok _ =>
      match env.policyResult with
      | .error e => (.error (.policyError e), [.createClient, .retrievePolicy])
      | .ok policy =>
        match ctx.pctx with
        | some .sshHost =>
          (.error (.unsupported "SSH host policy does not support common name regex patterns"),
            [.createClient, .retrievePolicy])
        | some .sshUser =>
          (.error (.unsupported "SSH user policy does not support common name regex patterns"),
            [.createClient, .retrievePolicy])
        | some .x509 =>
          match ctx.lctx with
          | some .allowList =>
            pushUpdate env
              { policy with X509.Allow.CommonNameRegex :=
                  addOrRemoveArguments policy.X509.Allow.CommonNameRegex ctx.args ctx.remove }
          | some .denyList =>
            pushUpdate env
              { policy with X509.Deny.CommonNameRegex :=
                  addOrRemoveArguments policy.X509.Deny.CommonNameRegex ctx.args ctx.remove }
          | none =>
            (.error (.panicked "no allow nor deny context set"), [.createClient, .retrievePolicy])
        | none =>
          (.error (.panicked "no SSH nor X.509 context set"), [.createClient, .retrievePolicy])

/-- Embedding of `uriConstraintAction` (uri_constraint source file):
mutates `X509.Allow.UriConstraints` or `X509.Deny.UriConstraints`,
rejecting both SSH branches. -/
def uriConstraintAction (env : Env) (ctx : ActionCtx) : ActionResult :=
  if ctx.args.isEmpty then (.error .tooFewArguments, [])
  else
    match env.clientResult with
    | .error e => (.error (.clientError e), [.createClient])
    | .ok _ =>
      match env.policyResult with
      | .error e => (.error (.policyError e), [.createClient, .retrievePolicy])
      | .ok policy =>
        match ctx.pctx with
        | some .sshHost =>
          (.error (.unsupported "SSH host policy does not support URI constraints"),
            [.createClient, .retrievePolicy])
        | some .sshUser =>
          (.error (.unsupported "SSH user policy does not support URI constraints"),
            [.createClient, .retrievePolicy])
        | some .x509 =>
          match ctx.lctx with
          | some .allowList =>
            pushUpdate env
              { policy with X509.Allow.UriConstraints :=
                  addOrRemoveArguments policy.X509.Allow.UriConstraints ctx.args ctx.remove }
          | some .denyList =>
            pushUpdate env
              { policy with X509.Deny.UriConstraints :=
                  addOrRemoveArguments policy.X509.Deny.UriConstraints ctx.args ctx.remove }
          | none =>
            (.error (.panicked "no allow nor deny context set"), [.createClient, .retrievePolicy])
        | none =>
          (.error (.panicked "no SSH nor X.509 context set"), [.createClient, .retrievePolicy])

/-- Embedding of `uriRegexAction` (uri_regex source file): mutates
`X509.Allow.UriRegex` or `X509.Deny.UriRegex`, rejecting both SSH
branches. -/
def uriRegexAction (env : Env) (ctx : ActionCtx) : ActionResult :=
  if ctx.args.isEmpty then (.error .tooFewArguments, [])
  else
    match env.clientResult with
    | .error e => (.error (.clientError e), [.createClient])
    | .ok _ =>
      match env.policyResult with
      | .error e => (.error (.policyError e), [.createClient, .retrievePolicy])
      | .ok policy =>
        match ctx.pctx with
        | some .sshHost =>
          (.error (.unsupported "SSH host policy does not support URI regex patterns"),
            [.createClient, .retrievePolicy])
        | some .sshUser =>
          (.error (.unsupported "SSH user policy does not support URI regex patterns"),
            [.createClient, .retrievePolicy])
        | some .x509 =>
          match ctx.lctx with
          | some .allowList =>
            pushUpdate env
              { policy with X509.Allow.UriRegex :=
                  addOrRemoveArguments policy.X509.Allow.UriRegex ctx.args ctx.remove }
          | some .denyList =>
            pushUpdate env
              { policy with X509.Deny.UriRegex :=
                  addOrRemoveArguments policy.X509.Deny.UriRegex ctx.args ctx.remove }
          | none =>
            (.error (.panicked "no allow nor deny context set"), [.createClient, .retrievePolicy])
        | none =>
          (.error (.panicked "no SSH nor X.509 context set"), [.createClient, .retrievePolicy])

/-- Embedding of `emailRegexAction` (email_regex source file): mutates
`Ssh.User.Allow.EmailRegex`, `Ssh.User.Deny.EmailRegex`,
`X509.Allow.EmailRegex` or `X509.Deny.EmailRegex`, rejecting the SSH
host branch. -/
def emailRegexAction (env : Env) (ctx : ActionCtx) : ActionResult :=
  if ctx.args.isEmpty then (.error .tooFewArguments, [])
  else
    match env.clientResult with
    | .error e => (.error (.clientError e), [.createClient])
    | .ok _ =>
      match env.policyResult with
      | .error e => (.error (.policyError e), [.createClient, .retrievePolicy])
      | .ok policy =>
        match ctx.pctx with
        | some .sshHost =>
          (.error (.unsupported "SSH host policy does not support email regex patterns"),
            [.createClient, .retrievePolicy])
        | some .sshUser =>
          match ctx.lctx with
          | some .allowList =>
            pushUpdate env
              { policy with Ssh.User.Allow.EmailRegex :=
                  addOrRemoveArguments policy.Ssh.User.Allow.EmailRegex ctx.args ctx.remove }
          | some .denyList =>
            pushUpdate env
              { policy with Ssh.User.Deny.EmailRegex :=
                  addOrRemoveArguments policy.Ssh.User.Deny.EmailRegex ctx.args ctx.remove }
          | none =>
            (.error (.panicked "no allow nor deny context set"), [.createClient, .retrievePolicy])
        | some .x509 =>
          match ctx.lctx with
          | some .allowList =>
            pushUpdate env
              { policy with X509.Allow.EmailRegex :=
                  addOrRemoveArguments policy.X509.Allow.EmailRegex ctx.args ctx.remove }
          | some .denyList =>
            pushUpdate env
              { policy with X509.Deny.EmailRegex :=
                  addOrRemoveArguments policy.X509.Deny.EmailRegex ctx.args ctx.remove }
          | none =>
            (.error (.panicked "no allow nor deny context set"), [.createClient, .retrievePolicy])
        | none =>
          (.error (.panicked "no SSH nor X.509 context set"), [.createClient, .retrievePolicy])

/-- Embedding of `dnsRegexAction` (dns_regex source file): mutates
`Ssh.Host.Allow.DnsRegex`, `Ssh.Host.Deny.DnsRegex`,
`X509.Allow.DnsRegex` or `X509.Deny.DnsRegex`, rejecting the SSH user
branch. -/
def dnsRegexAction (env : Env) (ctx : ActionCtx) : ActionResult :=
  if ctx.args.isEmpty then (.error .tooFewArguments, [])
  else
    match env.clientResult with
    | .error e => (.error (.clientError e), [.createClient])
    | .ok _ =>
      match env.policyResult with
      | .error e => (.error (.policyError e), [.createClient, .retrievePolicy])
      | .ok policy =>
        match ctx.pctx with
        | some .sshHost =>
          match ctx.lctx with
          | some .allowList =>
            pushUpdate env
              { policy with Ssh.Host.Allow.DnsRegex :=
                  addOrRemoveArguments policy.Ssh.Host.Allow.DnsRegex ctx.args ctx.remove }
          | some .denyList =>
            pushUpdate env
              { policy with Ssh.Host.Deny.DnsRegex :=
                  addOrRemoveArguments policy.Ssh.Host.Deny.DnsRegex ctx.args ctx.remove }
          | none =>
            (.error (.panicked "no allow nor deny context set"), [.createClient, .retrievePolicy])
        | some .sshUser =>
          (.error (.unsupported "SSH user policy does not support DNS regex patterns"),
            [.createClient, .retrievePolicy])
        | some .x509 =>
          match ctx.lctx with
          | some .allowList =>
            pushUpdate env
              { policy with X509.Allow.DnsRegex :=
                  addOrRemoveArguments policy.X509.Allow.DnsRegex ctx.args ctx.remove }
          | some .denyList =>
            pushUpdate env
              { policy with X509.Deny.DnsRegex :=
                  addOrRemoveArguments policy.X509.Deny.DnsRegex ctx.args ctx.remove }
          | none =>
            (.error (.panicked "no allow nor deny context set"), [.createClient, .retrievePolicy])
        | none =>
          (.error (.panicked "no SSH nor X.509 context set"), [.createClient, .retrievePolicy])

/-- Embedding of `principalRegexAction` (principal_regex source file):
mutates `Ssh.Host.Allow.PrincipalRegex`, `Ssh.Host.Deny.PrincipalRegex`,
`Ssh.User.Allow.PrincipalRegex` or `Ssh.User.Deny.PrincipalRegex`,
rejecting the X.509 branch. -/
def principalRegexAction (env : Env) (ctx : ActionCtx) : ActionResult :=
  if ctx.args.isEmpty then (.error .tooFewArguments, [])
  else
    match env.clientResult with
    | .error e => (.error (.clientError e), [.createClient])
    | .ok _ =>
      match env.policyResult with
      | .error e => (.error (.policyError e), [.createClient, .retrievePolicy])
      | .ok policy =>
        match ctx.pctx with
        | some .sshHost =>
          match ctx.lctx with
          | some .allowList =>
            pushUpdate env
              { policy with Ssh.Host.Allow.PrincipalRegex :=
                  addOrRemoveArguments policy.Ssh.Host.Allow.PrincipalRegex ctx.args ctx.remove }
          | some .denyList =>
            pushUpdate env
              { policy with Ssh.Host.Deny.PrincipalRegex :=
                  addOrRemoveArguments policy.Ssh.Host.Deny.PrincipalRegex ctx.args ctx.remove }
          | none =>
            (.error (.panicked "no allow nor deny context set"), [.createClient, .retrievePolicy])
        | some .sshUser =>
          match ctx.lctx with
          | some .allowList =>
            pushUpdate env
              { policy with Ssh.User.Allow.PrincipalRegex :=
                  addOrRemoveArguments policy.Ssh.User.Allow.PrincipalRegex ctx.args ctx.remove }
          | some .denyList =>
            pushUpdate env
              { policy with Ssh.User.Deny.PrincipalRegex :=
                  addOrRemoveArguments policy.Ssh.User.Deny.PrincipalRegex ctx.args ctx.remove }
          | none =>
            (.error (.panicked "no allow nor deny context set"), [.createClient, .retrievePolicy])
        | some .x509 =>
          (.error (.unsupported "X.509 policy does not support principal regex patterns"),
            [.createClient, .retrievePolicy])
        | none =>
          (.error (.panicked "no SSH nor X.509 context set"), [.createClient, .retrievePolicy])

/-- The eighteen rule-list fields of the policy document, one per
(branch, list, pattern kind) cell the actions can touch. -/
inductive FieldId where
  | x509AllowCommonNameRegex
  | x509DenyCommonNameRegex
  | x509AllowUriConstraints
  | x509DenyUriConstraints
  | x509AllowUriRegex
  | x509DenyUriRegex
  | x509AllowEmailRegex
  | x509DenyEmailRegex
  | x509AllowDnsRegex
  | x509DenyDnsRegex
  | sshHostAllowDnsRegex
  | sshHostDenyDnsRegex
  | sshHostAllowPrincipalRegex
  | sshHostDenyPrincipalRegex
  | sshUserAllowEmailRegex
  | sshUserDenyEmailRegex
  | sshUserAllowPrincipalRegex
  | sshUserDenyPrincipalRegex
deriving DecidableEq

/-- Read one rule-list field of the policy document. -/
def getField (p : Policy) : FieldId → List String
  | .x509AllowCommonNameRegex => p.X509.Allow.CommonNameRegex
  | .x509DenyCommonNameRegex => p.X509.Deny.CommonNameRegex
  | .x509AllowUriConstraints => p.X509.Allow.UriConstraints
  | .x509DenyUriConstraints => p.X509.Deny.UriConstraints
  | .x509AllowUriRegex => p.X509.Allow.UriRegex
  | .x509DenyUriRegex => p.X509.Deny.UriRegex
  | .x509AllowEmailRegex => p.X509.Allow.EmailRegex
  | .x509DenyEmailRegex => p.X509.Deny.EmailRegex
  | .x509AllowDnsRegex => p.X509.Allow.DnsRegex
  | .x509DenyDnsRegex => p.X509.Deny.DnsRegex
  | .sshHostAllowDnsRegex => p.Ssh.Host.Allow.DnsRegex
  | .sshHostDenyDnsRegex => p.Ssh.Host.Deny.DnsRegex
  | .sshHostAllowPrincipalRegex => p.Ssh.Host.Allow.PrincipalRegex
  | .sshHostDenyPrincipalRegex => p.Ssh.Host.Deny.PrincipalRegex
  | .sshUserAllowEmailRegex => p.Ssh.User.Allow.EmailRegex
  | .sshUserDenyEmailRegex => p.Ssh.User.Deny.EmailRegex
  | .sshUserAllowPrincipalRegex => p.Ssh.User.Allow.PrincipalRegex
  | .sshUserDenyPrincipalRegex => p.Ssh.User.Deny.PrincipalRegex

/-- The policy document an action passed to the update endpoint, if it
performed an update. -/
def sentPolicy (r : ActionResult) : Option Policy :=
  r.2.findSome? (fun e =>
    match e with
    | .pushPolicy d => some d
    | _ => none)

/-- Is the result an unsupported branch-and-kind error? -/
def isUnsupportedErr : Except ActionError Policy → Bool
  | .error (.unsupported _) => true
  | _ => false

/-- The rule-list field `commonNameRegexAction` mutates for each legal
branch and list pair; `none` on the pairs it rejects. -/
def cnRegexTarget : PolicyContext → ListSelector → Option FieldId
  | .x509, .allowList => some .x509AllowCommonNameRegex
  | .x509, .denyList => some .x509DenyCommonNameRegex
  | _, _ => none

/-- The rule-list field `uriConstraintAction` mutates per legal pair. -/
def uriConstraintTarget : PolicyContext → ListSelector → Option FieldId
  | .x509, .allowList => some .x509AllowUriConstraints
  | .x509, .denyList => some .x509DenyUriConstraints
  | _, _ => none

/-- The rule-list field `uriRegexAction` mutates per legal pair. -/
def uriRegexTarget : PolicyContext → ListSelector → Option FieldId
  | .x509, .allowList => some .x509AllowUriRegex
  | .x509, .denyList => some .x509DenyUriRegex
  | _, _ => none

/-- The rule-list field `emailRegexAction` mutates per legal pair. -/
def emailRegexTarget : PolicyContext → ListSelector → Option FieldId
  | .x509, .allowList => some .x509AllowEmailRegex
  | .x509, .denyList => some .x509DenyEmailRegex
  | .sshUser, .allowList => some .sshUserAllowEmailRegex
  | .sshUser, .denyList => some .sshUserDenyEmailRegex
  | _, _ => none

/-- The rule-list field `dnsRegexAction` mutates per legal pair. -/
def dnsRegexTarget : PolicyContext → ListSelector → Option FieldId
  | .x509, .allowList => some .x509AllowDnsRegex
  | .x509, .denyList => some .x509DenyDnsRegex
  | .sshHost, .allowList => some .sshHostAllowDnsRegex
  | .sshHost, .denyList => some .sshHostDenyDnsRegex
  | _, _ => none

/-- The rule-list field `principalRegexAction` mutates per legal pair. -/
def principalRegexTarget : PolicyContext → ListSelector → Option FieldId
  | .sshHost, .allowList => some .sshHostAllowPrincipalRegex
  | .sshHost, .denyList => some .sshHostDenyPrincipalRegex
  | .sshUser, .allowList => some .sshUserAllowPrincipalRegex
  | .sshUser, .denyList => some .sshUserDenyPrincipalRegex
  | _, _ => none

/-- A sample environment in which every remote operation succeeds and the
retrieved policy document is empty. -/
def envOk : Env := ⟨.ok (), .ok {}, fun p => .ok p⟩

/-- A sample invocation context with no positional arguments. -/
def ctxEmptyArgs : ActionCtx := ⟨some .x509, some .allowList, [], false⟩

/-- A sample invocation context on the SSH host branch with one
argument. -/
def ctxHostArgs : ActionCtx := ⟨some .sshHost, some .allowList, ["x"], false⟩

/-- A sample invocation context on the X.509 allow branch with one
argument. -/
def ctxX509Allow : ActionCtx := ⟨some .x509, some .allowList, ["x"], false⟩

/-- The document pushed by a successful cn-regex add of `x` to the
empty policy document. -/
def samplePushedDoc : Policy := { X509 := { Allow := { CommonNameRegex := ["x"] } } }

/-- A sample branch holding the same DNS pattern in the allow and the
deny list. -/
def pbBoth : PolicyBranch :=
  { allow := { dns := ⟨["a.example.com"], []⟩ },
    deny := { dns := ⟨["a.example.com"], []⟩ } }

/-- A sample branch allowing one DNS name and denying another. -/
def pbSplit : PolicyBranch :=
  { allow := { dns := ⟨["allowed.example.com"], []⟩ },
    deny := { dns := ⟨["denied.example.com"], []⟩ } }

/-- The identifiers of the multi-identifier example: one individually
allowed, one individually denied under `pbSplit`. -/
def idsSample : List Identifier :=
  [⟨.dns, "allowed.example.com"⟩, ⟨.dns, "denied.example.com"⟩]

/-- Adding preserves freedom from duplicates. -/
theorem addPattern_nodup (l : List String) (raw : String) (h : l.Nodup) :
    (addPattern l raw).1.Nodup := by
  by_cases hc : raw ∈ l
  · simp [addPattern, hc, h]
  · simp [addPattern, hc, h, List.nodup_append]

/-- Removing preserves freedom from duplicates. -/
theorem removePattern_nodup (l : List String) (raw : String) (h : l.Nodup) :
    (removePattern l raw).1.Nodup := by
  unfold removePattern
  by_cases hc : raw ∈ l
  · simp [hc, List.Nodup.filter _ h]
  · simp [hc, h]

/-- Any sequence of add and remove operations preserves freedom from
duplicates. -/
theorem applyOps_nodup (ops : List ROp) (l : List String) (h : l.Nodup) :
    (applyOps l ops).Nodup := by
  induction ops generalizing l with
  | nil => exact h
  | cons op ops ih =>
    cases op with
    | add raw => exact ih _ (addPattern_nodup l raw h)
    | rem raw => exact ih _ (removePattern_nodup l raw h)

/-- A cell matches nothing exactly when none of its plain patterns and
none of its regex patterns match. -/
theorem kindRulesMatch_eq_none_iff (k : IdKind) (r : KindRules) (v : String) :
    kindRulesMatch k r v = none ↔
      (∀ raw ∈ r.plain, plainMatches k raw v = false) ∧
      (∀ raw ∈ r.rx, regexMatches raw v = false) := by
  unfold kindRulesMatch
  cases hp : r.plain.find? (fun raw => plainMatches k raw v) with
  | some raw =>
    have h1 : plainMatches k raw v = true := by simpa using List.find?_some hp
    have h2 := List.mem_of_find?_eq_some hp
    constructor
    · intro h; cases h
    · rintro ⟨ha, _⟩
      have := ha raw h2
      rw [h1] at this
      cases this
  | none =>
    have hpl : ∀ raw ∈ r.plain, plainMatches k raw v = false := by
      intro raw hm
      have := List.find?_eq_none.mp hp raw hm
      simpa using this
    constructor
    · intro h
      refine ⟨hpl, ?_⟩
      intro raw hm
      have := List.find?_eq_none.mp h raw hm
      simpa using this
    · rintro ⟨_, hb⟩
      rw [List.find?_eq_none]
      intro raw hm
      simp [hb raw hm]

/-- A cell matches exactly when one of its plain patterns or one of its
regex patterns matches. -/
theorem kindRulesMatch_isSome_iff (k : IdKind) (r : KindRules) (v : String) :
    (kindRulesMatch k r v).isSome = true ↔
      (∃ raw ∈ r.plain, plainMatches k raw v = true) ∨
      (∃ raw ∈ r.rx, regexMatches raw v = true) := by
  unfold kindRulesMatch
  cases hp : r.plain.find? (fun raw => plainMatches k raw v) with
  | some raw =>
    simp only [Option.isSome_some, true_iff]
    exact Or.inl ⟨raw, List.mem_of_find?_eq_some hp, by simpa using List.find?_some hp⟩
  | none =>
    constructor
    · intro h
      obtain ⟨raw, hm, hmatch⟩ := List.find?_isSome.mp h
      exact Or.inr ⟨raw, hm, by simpa using hmatch⟩
    · rintro (⟨raw, hm, hmatch⟩ | ⟨raw, hm, hmatch⟩)
      · exfalso
        have := List.find?_eq_none.mp hp raw hm
        simp [hmatch] at this
      · exact List.find?_isSome.mpr ⟨raw, ⟨hm, by simpa using hmatch⟩⟩

/-- C2: an Add of a malformed pattern (an invalid regex for the regex
kinds, an unparseable structured URI for uri-constraint) fails at add
time with a configuration error surfaced immediately, no updated
RuleList is produced, and conversely every accepted Add carried a
well-formed pattern, so malformed patterns are never deferred to match
time. -/
theorem c2_malformed_add_rejected (pk : PatKind) (l : List String) (raw : String) :
    (patternValid pk raw = false →
       ruleAdd pk l raw = .error ("invalid pattern: " ++ raw)) ∧
    (∀ res, ruleAdd pk l raw = .ok res → patternValid pk raw = true) := by
  constructor
  · intro h
    simp [ruleAdd, h]
  · intro res h
    cases hv : patternValid pk raw
    · simp [ruleAdd, hv] at h
    · rfl

/-- Witness for C2: the malformed regex of a lone opening parenthesis
and the malformed structured URI with an empty scheme are both rejected
at add time on a concrete empty RuleList. -/
theorem c2_malformed_add_rejected_witness :
    patternValid PatKind.cnRegex "(" = false ∧
    ruleAdd PatKind.cnRegex [] "(" = .error ("invalid pattern: " ++ "(") ∧
    patternValid PatKind.uriConstraint "://x" = false ∧
    ruleAdd PatKind.uriConstraint [] "://x" = .error ("invalid pattern: " ++ "://x") :=
  ⟨by decide, (c2_malformed_add_rejected PatKind.cnRegex [] "(").1 (by decide),
   by decide, (c2_malformed_add_rejected PatKind.uriConstraint [] "://x").1 (by decide)⟩

/-- C3: adding a value twice gives the same list as adding it once with
a false changed flag the second time; removing an absent value returns
a false changed flag and the unchanged list, not an error; and every
RuleList built from the empty list by Add and Remove operations is free
of duplicate raw values. -/
theorem c3_add_remove_idempotent :
    (∀ (l : List String) (raw : String),
       addPattern (addPattern l raw).1 raw = ((addPattern l raw).1, false)) ∧
    (∀ (l : List String) (raw : String), raw ∉ l → removePattern l raw = (l, false)) ∧
    (∀ ops : List ROp, (applyOps [] ops).Nodup) := by
  refine ⟨?_, ?_, ?_⟩
  · intro l raw
    by_cases h : raw ∈ l
    · simp [addPattern, h]
    · simp [addPattern, h]
  · intro l raw h
    simp [removePattern, h]
  · intro ops
    exact applyOps_nodup ops [] List.nodup_nil

/-- Witness for C3 at concrete inputs: a double add collapses, a remove
of an absent value is a silent no-op, and a duplicate-add then remove
sequence from the empty list keeps the list duplicate-free. -/
theorem c3_add_remove_idempotent_witness :
    addPattern (addPattern ["a"] "b").1 "b" = ((addPattern ["a"] "b").1, false) ∧
    ("b" ∉ (["a"] : List String) ∧ removePattern ["a"] "b" = (["a"], false)) ∧
    (applyOps [] [ROp.add "a", ROp.add "a", ROp.rem "z"]).Nodup :=
  ⟨c3_add_remove_idempotent.1 ["a"] "b",
   ⟨by decide, c3_add_remove_idempotent.2.1 ["a"] "b" (by decide)⟩,
   c3_add_remove_idempotent.2.2 [ROp.add "a", ROp.add "a", ROp.rem "z"]⟩

/-- C4: whenever some pattern in the deny cell of the identifier's kind
matches the identifier, the evaluation outcome is deny, whatever the
allow cell holds — in particular even when a matching pattern is also
present in the allow cell, since deny evaluation precedes allow
evaluation. -/
theorem c4_deny_precedence (pb : PolicyBranch) (i : Identifier)
    (h : (∃ raw ∈ (pb.deny.forKind i.kind).plain, plainMatches i.kind raw i.value = true) ∨
         (∃ raw ∈ (pb.deny.forKind i.kind).rx, regexMatches raw i.value = true)) :
    (evaluateOne pb i).outcome = .deny := by
  have hs := (kindRulesMatch_isSome_iff i.kind (pb.deny.forKind i.kind) i.value).mpr h
  obtain ⟨raw, hr⟩ := Option.isSome_iff_exists.mp hs
  unfold evaluateOne
  simp [hr]

/-- Witness for C4: a pattern present in both the allow and the deny DNS
cell yields deny for a matching identifier. -/
theorem c4_deny_precedence_witness :
    ((∃ raw ∈ (pbBoth.deny.forKind IdKind.dns).plain,
        plainMatches IdKind.dns raw "a.example.com" = true) ∨
     (∃ raw ∈ (pbBoth.deny.forKind IdKind.dns).rx,
        regexMatches raw "a.example.com" = true)) ∧
    (∃ raw ∈ (pbBoth.allow.forKind IdKind.dns).plain,
        plainMatches IdKind.dns raw "a.example.com" = true) ∧
    (evaluateOne pbBoth ⟨IdKind.dns, "a.example.com"⟩).outcome = .deny :=
  ⟨Or.inl (by decide), by decide,
   c4_deny_precedence pbBoth ⟨IdKind.dns, "a.example.com"⟩ (Or.inl (by decide))⟩

/-- C5: with no deny-cell match, an empty allow cell allows
(default-allow-when-unconfigured), a configured allow cell with no
match denies (default-deny-when-allow-list-configured), and a matching
allow pattern allows. -/
theorem c5_default_allow_deny (pb : PolicyBranch) (i : Identifier)
    (hden : ∀ raw ∈ (pb.deny.forKind i.kind).plain, plainMatches i.kind raw i.value = false)
    (hdenrx : ∀ raw ∈ (pb.deny.forKind i.kind).rx, regexMatches raw i.value = false) :
    ((pb.allow.forKind i.kind).plain = [] ∧ (pb.allow.forKind i.kind).rx = [] →
       (evaluateOne pb i).outcome = .allow) ∧
    (((pb.allow.forKind i.kind).plain ≠ [] ∨ (pb.allow.forKind i.kind).rx ≠ []) →
       (∀ raw ∈ (pb.allow.forKind i.kind).plain, plainMatches i.kind raw i.value = false) →
       (∀ raw ∈ (pb.allow.forKind i.kind).rx, regexMatches raw i.value = false) →
       (evaluateOne pb i).outcome = .deny) ∧
    (((∃ raw ∈ (pb.allow.forKind i.kind).plain, plainMatches i.kind raw i.value = true) ∨
       (∃ raw ∈ (pb.allow.forKind i.kind).rx, regexMatches raw i.value = true)) →
       (evaluateOne pb i).outcome = .allow) := by
  have hnone := (kindRulesMatch_eq_none_iff i.kind (pb.deny.forKind i.kind) i.value).mpr
    ⟨hden, hdenrx⟩
  refine ⟨?_, ?_, ?_⟩
  · rintro ⟨h1, h2⟩
    unfold evaluateOne
    simp [hnone, KindRules.configured, h1, h2]
  · intro hne hap harx
    have hanone := (kindRulesMatch_eq_none_iff i.kind (pb.allow.forKind i.kind) i.value).mpr
      ⟨hap, harx⟩
    have hconf : (pb.allow.forKind i.kind).configured = true := by
      unfold KindRules.configured
      rcases hne with h | h <;> simp [h, List.isEmpty_iff]
    unfold evaluateOne
    simp [hnone, hconf, hanone]
  · intro hex
    have hs := (kindRulesMatch_isSome_iff i.kind (pb.allow.forKind i.kind) i.value).mpr hex
    obtain ⟨raw, hr⟩ := Option.isSome_iff_exists.mp hs
    have hconf : (pb.allow.forKind i.kind).configured = true := by
      unfold KindRules.configured
      rcases hex with ⟨w, hw, _⟩ | ⟨w, hw, _⟩ <;>
        simp [List.isEmpty_iff, List.ne_nil_of_mem hw]
    unfold evaluateOne
    simp [hnone, hconf, hr]

/-- Witness for C5: under the split branch the deny cell does not match
the allowed name, and all three conclusions hold there. -/
theorem c5_default_allow_deny_witness :
    (∀ raw ∈ (pbSplit.deny.forKind IdKind.dns).plain,
       plainMatches IdKind.dns raw "allowed.example.com" = false) ∧
    (∀ raw ∈ (pbSplit.deny.forKind IdKind.dns).rx,
       regexMatches raw "allowed.example.com" = false) ∧
    (((pbSplit.allow.forKind IdKind.dns).plain = [] ∧
        (pbSplit.allow.forKind IdKind.dns).rx = [] →
       (evaluateOne pbSplit ⟨IdKind.dns, "allowed.example.com"⟩).outcome = .allow) ∧
     (((pbSplit.allow.forKind IdKind.dns).plain ≠ [] ∨
         (pbSplit.allow.forKind IdKind.dns).rx ≠ []) →
       (∀ raw ∈ (pbSplit.allow.forKind IdKind.dns).plain,
          plainMatches IdKind.dns raw "allowed.example.com" = false) →
       (∀ raw ∈ (pbSplit.allow.forKind IdKind.dns).rx,
          regexMatches raw "allowed.example.com" = false) →
       (evaluateOne pbSplit ⟨IdKind.dns, "allowed.example.com"⟩).outcome = .deny) ∧
     (((∃ raw ∈ (pbSplit.allow.forKind IdKind.dns).plain,
          plainMatches IdKind.dns raw "allowed.example.com" = true) ∨
        (∃ raw ∈ (pbSplit.allow.forKind IdKind.dns).rx,
          regexMatches raw "allowed.example.com" = true)) →
       (evaluateOne pbSplit ⟨IdKind.dns, "allowed.example.com"⟩).outcome = .allow)) :=
  ⟨by decide, by decide,
   c5_default_allow_deny pbSplit ⟨IdKind.dns, "allowed.example.com"⟩ (by decide) (by decide)⟩

/-- C6: the aggregate evaluation of a request is deny exactly when some
identifier evaluates to deny, and allow exactly when every identifier
evaluates to allow. -/
theorem c6_multi_identifier_all_or_nothing (pb : PolicyBranch) (ids : List Identifier) :
    (evaluate pb ids = .deny ↔ ∃ i ∈ ids, (evaluateOne pb i).outcome = .deny) ∧
    (evaluate pb ids = .allow ↔ ∀ i ∈ ids, (evaluateOne pb i).outcome = .allow) := by
  have htwo : ∀ o : Outcome, ¬o = Outcome.allow ↔ o = Outcome.deny := by
    intro o; cases o <;> simp
  by_cases h : ∀ i ∈ ids, (evaluateOne pb i).outcome = Outcome.allow
  · have hb : (ids.all fun i => (evaluateOne pb i).outcome == Outcome.allow) = true := by
      simp only [List.all_eq_true, beq_iff_eq]
      exact fun i hi => h i hi
    constructor
    · simp only [evaluate, hb, if_true]
      constructor
      · intro hcon; cases hcon
      · rintro ⟨i, hi, hd⟩
        rw [h i hi] at hd
        cases hd
    · simp only [evaluate, hb, if_true]
      exact ⟨fun _ => h, fun _ => trivial⟩
  · have hb : (ids.all fun i => (evaluateOne pb i).outcome == Outcome.allow) = false := by
      rw [List.all_eq_false]
      push_neg at h
      obtain ⟨i, hi, hne⟩ := h
      exact ⟨i, hi, by simp [hne]⟩
    constructor
    · simp only [evaluate, hb, if_false]
      constructor
      · intro _
        push_neg at h
        obtain ⟨i, hi, hne⟩ := h
        exact ⟨i, hi, (htwo _).mp hne⟩
      · intro _; rfl
    · simp only [evaluate, hb, if_false]
      constructor
      · intro hcon; cases hcon
      · intro hall; exact absurd hall h

/-- Witness for C6: the two-identifier sample request, whose second
identifier is individually denied, is denied overall although the first
is individually allowed. -/
theorem c6_multi_identifier_all_or_nothing_witness :
    ((evaluate pbSplit idsSample = .deny ↔
        ∃ i ∈ idsSample, (evaluateOne pbSplit i).outcome = .deny) ∧
     (evaluate pbSplit idsSample = .allow ↔
        ∀ i ∈ idsSample, (evaluateOne pbSplit i).outcome = .allow)) ∧
    evaluate pbSplit idsSample = .deny ∧
    (evaluateOne pbSplit ⟨IdKind.dns, "allowed.example.com"⟩).outcome = .allow :=
  ⟨c6_multi_identifier_all_or_nothing pbSplit idsSample, by decide, by decide⟩

/-- C7: the DNS wildcard pattern for subdomains of example.com matches
the one-level and the two-level subdomain and does not match the apex
name; in general a wildcard pattern matches exactly the names that,
case-insensitively, end with a dot followed by the rest of the pattern,
so that some suffix of the name after at least its first label equals
the rest. -/
theorem c7_dns_wildcard :
    dnsMatch "*.example.com" "a.example.com" = true ∧
    dnsMatch "*.example.com" "b.a.example.com" = true ∧
    dnsMatch "*.example.com" "example.com" = false ∧
    ∀ rest name : List Char,
      dnsMatchL ('*' :: '.' :: rest) name =
        isSuffixL (lowercase ('.' :: rest)) (lowercase name) := by
  refine ⟨by decide, by decide, by decide, ?_⟩
  intro rest name
  rfl

/-- C8: the structured URI constraint grammar — the slash-star form is a
path-prefix match that accepts the in-prefix candidate and rejects a
scheme change or an out-of-prefix path; a bare domain matches any scheme
and path with that host; a scheme-and-host form matches any path; an
exact path form requires path equality; scheme and host comparison is
case-insensitive while path comparison is case-sensitive. -/
theorem c8_structured_uri_grammar :
    uriPatternMatches "https://api.example.com/api/*" "https://api.example.com/api/v1/x" = true ∧
    uriPatternMatches "https://api.example.com/api/*" "http://api.example.com/api/v1/x" = false ∧
    uriPatternMatches "https://api.example.com/api/*" "https://api.example.com/other" = false ∧
    parseURIConstraint "https://api.example.com/api/*" =
      some (URIPattern.schemeHostPfx "https".data "api.example.com".data "/api/".data) ∧
    uriPatternMatches "example.com" "spiffe://example.com/any/path" = true ∧
    uriPatternMatches "https://host.com" "https://host.com/any/path" = true ∧
    uriPatternMatches "https://host.com/a" "https://host.com/a" = true ∧
    uriPatternMatches "https://host.com/a" "https://host.com/a/b" = false ∧
    uriPatternMatches "https://HOST.com/Api" "HTTPS://host.com/Api" = true ∧
    uriPatternMatches "https://HOST.com/Api" "HTTPS://host.com/api" = false ∧
    (∀ d u, uriConstraintMatches (.domain d) u = dnsMatchL d u.host) ∧
    (∀ s h u, uriConstraintMatches (.schemeHost s h) u =
       (lowercase s == lowercase u.scheme && lowercase h == lowercase u.host)) ∧
    (∀ s h p u, uriConstraintMatches (.schemeHostPath s h p) u =
       (lowercase s == lowercase u.scheme && lowercase h == lowercase u.host && p == u.path)) ∧
    (∀ s h p u, uriConstraintMatches (.schemeHostPfx s h p) u =
       (lowercase s == lowercase u.scheme && lowercase h == lowercase u.host &&
        startsWithL p u.path)) := by
  refine ⟨by decide, by decide, by decide, by decide, by decide, by decide, by decide,
    by decide, by decide, by decide, ?_, ?_, ?_, ?_⟩
  · intro d u; rfl
  · intro s h u; rfl
  · intro s h p u; rfl
  · intro s h p u; rfl

/-- C9: each of the six actions invoked with an empty positional
argument list returns the too-few-arguments error with an empty effect
trace, hence before creating the admin client, before retrieving the
policy, and before any mutation or remote update. -/
theorem c9_empty_args_early_error (env : Env) (ctx : ActionCtx) (h : ctx.args = []) :
    commonNameRegexAction env ctx = (.error .tooFewArguments, []) ∧
    uriConstraintAction env ctx = (.error .tooFewArguments, []) ∧
    uriRegexAction env ctx = (.error .tooFewArguments, []) ∧
    emailRegexAction env ctx = (.error .tooFewArguments, []) ∧
    dnsRegexAction env ctx = (.error .tooFewArguments, []) ∧
    principalRegexAction env ctx = (.error .tooFewArguments, []) := by
  have he : ctx.args.isEmpty = true := by simp [h]
  refine ⟨?_, ?_, ?_, ?_, ?_, ?_⟩ <;>
    simp [commonNameRegexAction, uriConstraintAction, uriRegexAction, emailRegexAction,
      dnsRegexAction, principalRegexAction, he]

/-- Witness for C9 at a concrete argument-free context: all six actions
fail early with an empty trace. -/
theorem c9_empty_args_early_error_witness :
    ctxEmptyArgs.args = [] ∧
    (commonNameRegexAction envOk ctxEmptyArgs = (.error .tooFewArguments, []) ∧
     uriConstraintAction envOk ctxEmptyArgs = (.error .tooFewArguments, []) ∧
     uriRegexAction envOk ctxEmptyArgs = (.error .tooFewArguments, []) ∧
     emailRegexAction envOk ctxEmptyArgs = (.error .tooFewArguments, []) ∧
     dnsRegexAction envOk ctxEmptyArgs = (.error .tooFewArguments, []) ∧
     principalRegexAction envOk ctxEmptyArgs = (.error .tooFewArguments, [])) :=
  ⟨rfl, c9_empty_args_early_error envOk ctxEmptyArgs rfl⟩

/-- The update tail never produces an unsupported-combination error. -/
theorem pushUpdate_not_unsupported (env : Env) (doc : Policy) :
    isUnsupportedErr (pushUpdate env doc).1 = false := by
  unfold pushUpdate
  cases env.updateResult doc <;> simp [isUnsupportedErr]

/-- On its legal X.509 branch, cn-regex never returns an unsupported
error. -/
theorem cnRegex_not_unsupported (env : Env) (ctx : ActionCtx)
    (hctx : ctx.pctx = some .x509) :
    isUnsupportedErr (commonNameRegexAction env ctx).1 = false := by
  unfold commonNameRegexAction
  split
  · rfl
  · cases hc : env.clientResult with
    | error e => simp [isUnsupportedErr]
    | ok u =>
      cases hp : env.policyResult with
      | error e => simp [isUnsupportedErr]
      | ok policy =>
        rw [hctx]
        cases hl : ctx.lctx with
        | none => simp [isUnsupportedErr]
        | some ls => cases ls <;> simp [pushUpdate_not_unsupported]

/-- On its legal X.509 branch, uri-constraint never returns an
unsupported error. -/
theorem uriConstraint_not_unsupported (env : Env) (ctx : ActionCtx)
    (hctx : ctx.pctx = some .x509) :
    isUnsupportedErr (uriConstraintAction env ctx).1 = false := by
  unfold uriConstraintAction
  split
  · rfl
  · cases hc : env.clientResult with
    | error e => simp [isUnsupportedErr]
    | ok u =>
      cases hp : env.policyResult with
      | error e => simp [isUnsupportedErr]
      | ok policy =>
        rw [hctx]
        cases hl : ctx.lctx with
        | none => simp [isUnsupportedErr]
        | some ls => cases ls <;> simp [pushUpdate_not_unsupported]

/-- On its legal X.509 branch, uri-regex never returns an unsupported
error. -/
theorem uriRegex_not_unsupported (env : Env) (ctx : ActionCtx)
    (hctx : ctx.pctx = some .x509) :
    isUnsupportedErr (uriRegexAction env ctx).1 = false := by
  unfold uriRegexAction
  split
  · rfl
  · cases hc : env.clientResult with
    | error e => simp [isUnsupportedErr]
    | ok u =>
      cases hp : env.policyResult with
      | error e => simp [isUnsupportedErr]
      | ok policy =>
        rw [hctx]
        cases hl : ctx.lctx with
        | none => simp [isUnsupportedErr]
        | some ls => cases ls <;> simp [pushUpdate_not_unsupported]

/-- On its legal X.509 and SSH user branches, email-regex never returns
an unsupported error. -/
theorem emailRegex_not_unsupported (env : Env) (ctx : ActionCtx)
    (hctx : ctx.pctx = some .x509 ∨ ctx.pctx = some .sshUser) :
    isUnsupportedErr (emailRegexAction env ctx).1 = false := by
  unfold emailRegexAction
  split
  · rfl
  · cases hc : env.clientResult with
    | error e => simp [isUnsupportedErr]
    | ok u =>
      cases hp : env.policyResult with
      | error e => simp [isUnsupportedErr]
      | ok policy =>
        rcases hctx with h | h <;> rw [h] <;>
          (cases hl : ctx.lctx with
           | none => simp [isUnsupportedErr]
           | some ls => cases ls <;> simp [pushUpdate_not_unsupported])

/-- On its legal X.509 and SSH host branches, dns-regex never returns
an unsupported error. -/
theorem dnsRegex_not_unsupported (env : Env) (ctx : ActionCtx)
    (hctx : ctx.pctx = some .x509 ∨ ctx.pctx = some .sshHost) :
    isUnsupportedErr (dnsRegexAction env ctx).1 = false := by
  unfold dnsRegexAction
  split
  · rfl
  · cases hc : env.clientResult with
    | error e => simp [isUnsupportedErr]
    | ok u =>
      cases hp : env.policyResult with
      | error e => simp [isUnsupportedErr]
      | ok policy =>
        rcases hctx with h | h <;> rw [h] <;>
          (cases hl : ctx.lctx with
           | none => simp [isUnsupportedErr]
           | some ls => cases ls <;> simp [pushUpdate_not_unsupported])

/-- On its legal SSH host and SSH user branches, principal-regex never
returns an unsupported error. -/
theorem principalRegex_not_unsupported (env : Env) (ctx : ActionCtx)
    (hctx : ctx.pctx = some .sshHost ∨ ctx.pctx = some .sshUser) :
    isUnsupportedErr (principalRegexAction env ctx).1 = false := by
  unfold principalRegexAction
  split
  · rfl
  · cases hc : env.clientResult with
    | error e => simp [isUnsupportedErr]
    | ok u =>
      cases hp : env.policyResult with
      | error e => simp [isUnsupportedErr]
      | ok policy =>
        rcases hctx with h | h <;> rw [h] <;>
          (cases hl : ctx.lctx with
           | none => simp [isUnsupportedErr]
           | some ls => cases ls <;> simp [pushUpdate_not_unsupported])

/-- C1: a branch and kind pair not marked yes in the legality table is
rejected — once the prelude has succeeded, the action on an illegal
branch returns the unsupported error with a trace holding no policy
push, so before any mutation of the policy document — while on a pair
marked yes the unsupported error is never returned; and each error
message names both the branch and the pattern kind. -/
theorem c1_branch_kind_legality :
    (∀ (env : Env) (ctx : ActionCtx) (p : Policy),
      ctx.args ≠ [] → env.clientResult = .ok () → env.policyResult = .ok p →
      ((ctx.pctx = some .sshHost → commonNameRegexAction env ctx =
         (.error (.unsupported "SSH host policy does not support common name regex patterns"),
          [.createClient, .retrievePolicy])) ∧
       (ctx.pctx = some .sshUser → commonNameRegexAction env ctx =
         (.error (.unsupported "SSH user policy does not support common name regex patterns"),
          [.createClient, .retrievePolicy])) ∧
       (ctx.pctx = some .sshHost → uriConstraintAction env ctx =
         (.error (.unsupported "SSH host policy does not support URI constraints"),
          [.createClient, .retrievePolicy])) ∧
       (ctx.pctx = some .sshUser → uriConstraintAction env ctx =
         (.error (.unsupported "SSH user policy does not support URI constraints"),
          [.createClient, .retrievePolicy])) ∧
       (ctx.pctx = some .sshHost → uriRegexAction env ctx =
         (.error (.unsupported "SSH host policy does not support URI regex patterns"),
          [.createClient, .retrievePolicy])) ∧
       (ctx.pctx = some .sshUser → uriRegexAction env ctx =
         (.error (.unsupported "SSH user policy does not support URI regex patterns"),
          [.createClient, .retrievePolicy])) ∧
       (ctx.pctx = some .sshHost → emailRegexAction env ctx =
         (.error (.unsupported "SSH host policy does not support email regex patterns"),
          [.createClient, .retrievePolicy])) ∧
       (ctx.pctx = some .sshUser → dnsRegexAction env ctx =
         (.error (.unsupported "SSH user policy does not support DNS regex patterns"),
          [.createClient, .retrievePolicy])) ∧
       (ctx.pctx = some .x509 → principalRegexAction env ctx =
         (.error (.unsupported "X.509 policy does not support principal regex patterns"),
          [.createClient, .retrievePolicy])))) ∧
    (∀ (env : Env) (ctx : ActionCtx),
      (ctx.pctx = some .x509 → isUnsupportedErr (commonNameRegexAction env ctx).1 = false) ∧
      (ctx.pctx = some .x509 → isUnsupportedErr (uriConstraintAction env ctx).1 = false) ∧
      (ctx.pctx = some .x509 → isUnsupportedErr (uriRegexAction env ctx).1 = false) ∧
      (ctx.pctx = some .x509 → isUnsupportedErr (emailRegexAction env ctx).1 = false) ∧
      (ctx.pctx = some .sshUser → isUnsupportedErr (emailRegexAction env ctx).1 = false) ∧
      (ctx.pctx = some .sshHost → isUnsupportedErr (dnsRegexAction env ctx).1 = false) ∧
      (ctx.pctx = some .x509 → isUnsupportedErr (dnsRegexAction env ctx).1 = false) ∧
      (ctx.pctx = some .sshHost → isUnsupportedErr (principalRegexAction env ctx).1 = false) ∧
      (ctx.pctx = some .sshUser → isUnsupportedErr (principalRegexAction env ctx).1 = false)) ∧
    (strContains "SSH host policy does not support common name regex patterns" "SSH host" = true ∧
     strContains "SSH host policy does not support common name regex patterns"
       "common name regex" = true ∧
     strContains "SSH user policy does not support common name regex patterns" "SSH user" = true ∧
     strContains "SSH user policy does not support common name regex patterns"
       "common name regex" = true ∧
     strContains "SSH host policy does not support URI constraints" "SSH host" = true ∧
     strContains "SSH host policy does not support URI constraints" "URI constraint" = true ∧
     strContains "SSH user policy does not support URI constraints" "SSH user" = true ∧
     strContains "SSH user policy does not support URI constraints" "URI constraint" = true ∧
     strContains "SSH host policy does not support URI regex patterns" "SSH host" = true ∧
     strContains "SSH host policy does not support URI regex patterns" "URI regex" = true ∧
     strContains "SSH user policy does not support URI regex patterns" "SSH user" = true ∧
     strContains "SSH user policy does not support URI regex patterns" "URI regex" = true ∧
     strContains "SSH host policy does not support email regex patterns" "SSH host" = true ∧
     strContains "SSH host policy does not support email regex patterns" "email regex" = true ∧
     strContains "SSH user policy does not support DNS regex patterns" "SSH user" = true ∧
     strContains "SSH user policy does not support DNS regex patterns" "DNS regex" = true ∧
     strContains "X.509 policy does not support principal regex patterns" "X.509" = true ∧
     strContains "X.509 policy does not support principal regex patterns"
       "principal regex" = true) := by
  refine ⟨?_, ?_, ?_⟩
  · intro env ctx p ha hc hp
    have he : ctx.args.isEmpty = false := by
      cases hx : ctx.args
      · exact absurd hx ha
      · rfl
    refine ⟨?_, ?_, ?_, ?_, ?_, ?_, ?_, ?_, ?_⟩ <;> intro hctx <;>
      simp [commonNameRegexAction, uriConstraintAction, uriRegexAction, emailRegexAction,
        dnsRegexAction, principalRegexAction, he, hc, hp, hctx]
  · intro env ctx
    exact ⟨fun h => cnRegex_not_unsupported env ctx h,
      fun h => uriConstraint_not_unsupported env ctx h,
      fun h => uriRegex_not_unsupported env ctx h,
      fun h => emailRegex_not_unsupported env ctx (Or.inl h),
      fun h => emailRegex_not_unsupported env ctx (Or.inr h),
      fun h => dnsRegex_not_unsupported env ctx (Or.inr h),
      fun h => dnsRegex_not_unsupported env ctx (Or.inl h),
      fun h => principalRegex_not_unsupported env ctx (Or.inl h),
      fun h => principalRegex_not_unsupported env ctx (Or.inr h)⟩
  · refine ⟨?_, ?_, ?_, ?_, ?_, ?_, ?_, ?_, ?_, ?_, ?_, ?_, ?_, ?_, ?_, ?_, ?_, ?_⟩ <;> decide

/-- Witness for C1: on a concrete SSH host context with one argument
and a succeeding prelude, cn-regex returns the branch-and-kind-naming
unsupported error without pushing a policy, and on a concrete X.509
context it returns no unsupported error. -/
theorem c1_branch_kind_legality_witness :
    ctxHostArgs.args ≠ [] ∧ envOk.clientResult = .ok () ∧ envOk.policyResult = .ok {} ∧
    ctxHostArgs.pctx = some .sshHost ∧
    commonNameRegexAction envOk ctxHostArgs =
      (.error (.unsupported "SSH host policy does not support common name regex patterns"),
       [.createClient, .retrievePolicy]) ∧
    ctxX509Allow.pctx = some .x509 ∧
    isUnsupportedErr (commonNameRegexAction envOk ctxX509Allow).1 = false :=
  ⟨by decide, rfl, rfl, rfl,
   (c1_branch_kind_legality.1 envOk ctxHostArgs {} (by decide) rfl rfl).1 rfl,
   rfl,
   (c1_branch_kind_legality.2.1 envOk ctxX509Allow).1 rfl⟩

/-- The update tail records exactly the document it pushes. -/
theorem sentPolicy_pushUpdate (env : Env) (doc : Policy) :
    sentPolicy (pushUpdate env doc) = some doc := by
  unfold pushUpdate
  cases env.updateResult doc <;> rfl

/-- The eighteen rule-list fields determine the policy document. -/
theorem getField_ext (p q : Policy) (h : ∀ f, getField p f = getField q f) : p = q := by
  obtain ⟨⟨⟨a1, a2, a3, a4, a5⟩, ⟨b1, b2, b3, b4, b5⟩⟩,
    ⟨⟨⟨c1, c2⟩, ⟨c3, c4⟩⟩, ⟨⟨e1, e2⟩, ⟨e3, e4⟩⟩⟩⟩ := p
  obtain ⟨⟨⟨a1q, a2q, a3q, a4q, a5q⟩, ⟨b1q, b2q, b3q, b4q, b5q⟩⟩,
    ⟨⟨⟨c1q, c2q⟩, ⟨c3q, c4q⟩⟩, ⟨⟨e1q, e2q⟩, ⟨e3q, e4q⟩⟩⟩⟩ := q
  have h01 := h .x509AllowCommonNameRegex
  have h02 := h .x509DenyCommonNameRegex
  have h03 := h .x509AllowUriConstraints
  have h04 := h .x509DenyUriConstraints
  have h05 := h .x509AllowUriRegex
  have h06 := h .x509DenyUriRegex
  have h07 := h .x509AllowEmailRegex
  have h08 := h .x509DenyEmailRegex
  have h09 := h .x509AllowDnsRegex
  have h10 := h .x509DenyDnsRegex
  have h11 := h .sshHostAllowDnsRegex
  have h12 := h .sshHostDenyDnsRegex
  have h13 := h .sshHostAllowPrincipalRegex
  have h14 := h .sshHostDenyPrincipalRegex
  have h15 := h .sshUserAllowEmailRegex
  have h16 := h .sshUserDenyEmailRegex
  have h17 := h .sshUserAllowPrincipalRegex
  have h18 := h .sshUserDenyPrincipalRegex
  simp only [getField] at h01 h02 h03 h04 h05 h06 h07 h08 h09 h10 h11 h12 h13 h14 h15 h16 h17 h18
  subst h01 h02 h03 h04 h05 h06 h07 h08 h09 h10 h11 h12 h13 h14 h15 h16 h17 h18
  rfl

/-- A successful cn-regex invocation pushes a document differing from
the retrieved one in exactly the selected field. -/
theorem cnRegex_frame (env : Env) (ctx : ActionCtx) (policy d : Policy)
    (hp : env.policyResult = .ok policy)
    (hs : sentPolicy (commonNameRegexAction env ctx) = some d) :
    ∃ b l fid, ctx.pctx = some b ∧ ctx.lctx = some l ∧ cnRegexTarget b l = some fid ∧
      getField d fid = addOrRemoveArguments (getField policy fid) ctx.args ctx.remove ∧
      ∀ f, f ≠ fid → getField d f = getField policy f := by
  unfold commonNameRegexAction at hs
  by_cases he : ctx.args.isEmpty
  · rw [if_pos he] at hs
    simp [sentPolicy] at hs
  · rw [if_neg he] at hs
    cases hcl : env.clientResult with
    | error e => rw [hcl] at hs; simp [sentPolicy] at hs
    | ok u =>
      rw [hcl] at hs
      rw [hp] at hs
      cases hpc : ctx.pctx with
      | none => rw [hpc] at hs; simp [sentPolicy] at hs
      | some b =>
        rw [hpc] at hs
        cases b with
        | sshHost => simp [sentPolicy] at hs
        | sshUser => simp [sentPolicy] at hs
        | x509 =>
          cases hl : ctx.lctx with
          | none => rw [hl] at hs; simp [sentPolicy] at hs
          | some ls =>
            rw [hl] at hs
            cases ls with
            | allowList =>
              rw [sentPolicy_pushUpdate] at hs
              obtain rfl : _ = d := Option.some_injective _ hs
              refine ⟨.x509, .allowList, .x509AllowCommonNameRegex, rfl, rfl, rfl, ?_, ?_⟩
              · simp [getField]
              · intro f hf
                cases f <;> first | (exact absurd rfl hf) | simp [getField]
            | denyList =>
              rw [sentPolicy_pushUpdate] at hs
              obtain rfl : _ = d := Option.some_injective _ hs
              refine ⟨.x509, .denyList, .x509DenyCommonNameRegex, rfl, rfl, rfl, ?_, ?_⟩
              · simp [getField]
              · intro f hf
                cases f <;> first | (exact absurd rfl hf) | simp [getField]

/-- A successful uri-constraint invocation pushes a document differing
from the retrieved one in exactly the selected field. -/
theorem uriConstraint_frame (env : Env) (ctx : ActionCtx) (policy d : Policy)
    (hp : env.policyResult = .ok policy)
    (hs : sentPolicy (uriConstraintAction env ctx) = some d) :
    ∃ b l fid, ctx.pctx = some b ∧ ctx.lctx = some l ∧ uriConstraintTarget b l = some fid ∧
      getField d fid = addOrRemoveArguments (getField policy fid) ctx.args ctx.remove ∧
      ∀ f, f ≠ fid → getField d f = getField policy f := by
  unfold uriConstraintAction at hs
  by_cases he : ctx.args.isEmpty
  · rw [if_pos he] at hs
    simp [sentPolicy] at hs
  · rw [if_neg he] at hs
    cases hcl : env.clientResult with
    | error e => rw [hcl] at hs; simp [sentPolicy] at hs
    | ok u =>
      rw [hcl] at hs
      rw [hp] at hs
      cases hpc : ctx.pctx with
      | none => rw [hpc] at hs; simp [sentPolicy] at hs
      | some b =>
        rw [hpc] at hs
        cases b with
        | sshHost => simp [sentPolicy] at hs
        | sshUser => simp [sentPolicy] at hs
        | x509 =>
          cases hl : ctx.lctx with
          | none => rw [hl] at hs; simp [sentPolicy] at hs
          | some ls =>
            rw [hl] at hs
            cases ls with
            | allowList =>
              rw [sentPolicy_pushUpdate] at hs
              obtain rfl : _ = d := Option.some_injective _ hs
              refine ⟨.x509, .allowList, .x509AllowUriConstraints, rfl, rfl, rfl, ?_, ?_⟩
              · simp [getField]
              · intro f hf
                cases f <;> first | (exact absurd rfl hf) | simp [getField]
            | denyList =>
              rw [sentPolicy_pushUpdate] at hs
              obtain rfl : _ = d := Option.some_injective _ hs
              refine ⟨.x509, .denyList, .x509DenyUriConstraints, rfl, rfl, rfl, ?_, ?_⟩
              · simp [getField]
              · intro f hf
                cases f <;> first | (exact absurd rfl hf) | simp [getField]

/-- A successful uri-regex invocation pushes a document differing from
the retrieved one in exactly the selected field. -/
theorem uriRegex_frame (env : Env) (ctx : ActionCtx) (policy d : Policy)
    (hp : env.policyResult = .ok policy)
    (hs : sentPolicy (uriRegexAction env ctx) = some d) :
    ∃ b l fid, ctx.pctx = some b ∧ ctx.lctx = some l ∧ uriRegexTarget b l = some fid ∧
      getField d fid = addOrRemoveArguments (getField policy fid) ctx.args ctx.remove ∧
      ∀ f, f ≠ fid → getField d f = getField policy f := by
  unfold uriRegexAction at hs
  by_cases he : ctx.args.isEmpty
  · rw [if_pos he] at hs
    simp [sentPolicy] at hs
  · rw [if_neg he] at hs
    cases hcl : env.clientResult with
    | error e => rw [hcl] at hs; simp [sentPolicy] at hs
    | ok u =>
      rw [hcl] at hs
      rw [hp] at hs
      cases hpc : ctx.pctx with
      | none => rw [hpc] at hs; simp [sentPolicy] at hs
      | some b =>
        rw [hpc] at hs
        cases b with
        | sshHost => simp [sentPolicy] at hs
        | sshUser => simp [sentPolicy] at hs
        | x509 =>
          cases hl : ctx.lctx with
          | none => rw [hl] at hs; simp [sentPolicy] at hs
          | some ls =>
            rw [hl] at hs
            cases ls with
            | allowList =>
              rw [sentPolicy_pushUpdate] at hs
              obtain rfl : _ = d := Option.some_injective _ hs
              refine ⟨.x509, .allowList, .x509AllowUriRegex, rfl, rfl, rfl, ?_, ?_⟩
              · simp [getField]
              · intro f hf
                cases f <;> first | (exact absurd rfl hf) | simp [getField]
            | denyList =>
              rw [sentPolicy_pushUpdate] at hs
              obtain rfl : _ = d := Option.some_injective _ hs
              refine ⟨.x509, .denyList, .x509DenyUriRegex, rfl, rfl, rfl, ?_, ?_⟩
              · simp [getField]
              · intro f hf
                cases f <;> first | (exact absurd rfl hf) | simp [getField]

/-- A successful email-regex invocation pushes a document differing
from the retrieved one in exactly the selected field. -/
theorem emailRegex_frame (env : Env) (ctx : ActionCtx) (policy d : Policy)
    (hp : env.policyResult = .ok policy)
    (hs : sentPolicy (emailRegexAction env ctx) = some d) :
    ∃ b l fid, ctx.pctx = some b ∧ ctx.lctx = some l ∧ emailRegexTarget b l = some fid ∧
      getField d fid = addOrRemoveArguments (getField policy fid) ctx.args ctx.remove ∧
      ∀ f, f ≠ fid → getField d f = getField policy f := by
  unfold emailRegexAction at hs
  by_cases he : ctx.args.isEmpty
  · rw [if_pos he] at hs
    simp [sentPolicy] at hs
  · rw [if_neg he] at hs
    cases hcl : env.clientResult with
    | error e => rw [hcl] at hs; simp [sentPolicy] at hs
    | ok u =>
      rw [hcl] at hs
      rw [hp] at hs
      cases hpc : ctx.pctx with
      | none => rw [hpc] at hs; simp [sentPolicy] at hs
      | some b =>
        rw [hpc] at hs
        cases b with
        | sshHost => simp [sentPolicy] at hs
        | sshUser =>
          cases hl : ctx.lctx with
          | none => rw [hl] at hs; simp [sentPolicy] at hs
          | some ls =>
            rw [hl] at hs
            cases ls with
            | allowList =>
              rw [sentPolicy_pushUpdate] at hs
              obtain rfl : _ = d := Option.some_injective _ hs
              refine ⟨.sshUser, .allowList, .sshUserAllowEmailRegex, rfl, rfl, rfl, ?_, ?_⟩
              · simp [getField]
              · intro f hf
                cases f <;> first | (exact absurd rfl hf) | simp [getField]
            | denyList =>
              rw [sentPolicy_pushUpdate] at hs
              obtain rfl : _ = d := Option.some_injective _ hs
              refine ⟨.sshUser, .denyList, .sshUserDenyEmailRegex, rfl, rfl, rfl, ?_, ?_⟩
              · simp [getField]
              · intro f hf
                cases f <;> first | (exact absurd rfl hf) | simp [getField]
        | x509 =>
          cases hl : ctx.lctx with
          | none => rw [hl] at hs; simp [sentPolicy] at hs
          | some ls =>
            rw [hl] at hs
            cases ls with
            | allowList =>
              rw [sentPolicy_pushUpdate] at hs
              obtain rfl : _ = d := Option.some_injective _ hs
              refine ⟨.x509, .allowList, .x509AllowEmailRegex, rfl, rfl, rfl, ?_, ?_⟩
              · simp [getField]
              · intro f hf
                cases f <;> first | (exact absurd rfl hf) | simp [getField]
            | denyList =>
              rw [sentPolicy_pushUpdate] at hs
              obtain rfl : _ = d := Option.some_injective _ hs
              refine ⟨.x509, .denyList, .x509DenyEmailRegex, rfl, rfl, rfl, ?_, ?_⟩
              · simp [getField]
              · intro f hf
                cases f <;> first | (exact absurd rfl hf) | simp [getField]

/-- A successful dns-regex invocation pushes a document differing from
the retrieved one in exactly the selected field. -/
theorem dnsRegex_frame (env : Env) (ctx : ActionCtx) (policy d : Policy)
    (hp : env.policyResult = .ok policy)
    (hs : sentPolicy (dnsRegexAction env ctx) = some d) :
    ∃ b l fid, ctx.pctx = some b ∧ ctx.lctx = some l ∧ dnsRegexTarget b l = some fid ∧
      getField d fid = addOrRemoveArguments (getField policy fid) ctx.args ctx.remove ∧
      ∀ f, f ≠ fid → getField d f = getField policy f := by
  unfold dnsRegexAction at hs
  by_cases he : ctx.args.isEmpty
  · rw [if_pos he] at hs
    simp [sentPolicy] at hs
  · rw [if_neg he] at hs
    cases hcl : env.clientResult with
    | error e => rw [hcl] at hs; simp [sentPolicy] at hs
    | ok u =>
      rw [hcl] at hs
      rw [hp] at hs
      cases hpc : ctx.pctx with
      | none => rw [hpc] at hs; simp [sentPolicy] at hs
      | some b =>
        rw [hpc] at hs
        cases b with
        | sshHost =>
          cases hl : ctx.lctx with
          | none => rw [hl] at hs; simp [sentPolicy] at hs
          | some ls =>
            rw [hl] at hs
            cases ls with
            | allowList =>
              rw [sentPolicy_pushUpdate] at hs
              obtain rfl : _ = d := Option.some_injective _ hs
              refine ⟨.sshHost, .allowList, .sshHostAllowDnsRegex, rfl, rfl, rfl, ?_, ?_⟩
              · simp [getField]
              · intro f hf
                cases f <;> first | (exact absurd rfl hf) | simp [getField]
            | denyList =>
              rw [sentPolicy_pushUpdate] at hs
              obtain rfl : _ = d := Option.some_injective _ hs
              refine ⟨.sshHost, .denyList, .sshHostDenyDnsRegex, rfl, rfl, rfl, ?_, ?_⟩
              · simp [getField]
              · intro f hf
                cases f <;> first | (exact absurd rfl hf) | simp [getField]
        | sshUser => simp [sentPolicy] at hs
        | x509 =>
          cases hl : ctx.lctx with
          | none => rw [hl] at hs; simp [sentPolicy] at hs
          | some ls =>
            rw [hl] at hs
            cases ls with
            | allowList =>
              rw [sentPolicy_pushUpdate] at hs
              obtain rfl : _ = d := Option.some_injective _ hs
              refine ⟨.x509, .allowList, .x509AllowDnsRegex, rfl, rfl, rfl, ?_, ?_⟩
              · simp [getField]
              · intro f hf
                cases f <;> first | (exact absurd rfl hf) | simp [getField]
            | denyList =>
              rw [sentPolicy_pushUpdate] at hs
              obtain rfl : _ = d := Option.some_injective _ hs
              refine ⟨.x509, .denyList, .x509DenyDnsRegex, rfl, rfl, rfl, ?_, ?_⟩
              · simp [getField]
              · intro f hf
                cases f <;> first | (exact absurd rfl hf) | simp [getField]

/-- A successful principal-regex invocation pushes a document differing
from the retrieved one in exactly the selected field. -/
theorem principalRegex_frame (env : Env) (ctx : ActionCtx) (policy d : Policy)
    (hp : env.policyResult = .ok policy)
    (hs : sentPolicy (principalRegexAction env ctx) = some d) :
    ∃ b l fid, ctx.pctx = some b ∧ ctx.lctx = some l ∧ principalRegexTarget b l = some fid ∧
      getField d fid = addOrRemoveArguments (getField policy fid) ctx.args ctx.remove ∧
      ∀ f, f ≠ fid → getField d f = getField policy f := by
  unfold principalRegexAction at hs
  by_cases he : ctx.args.isEmpty
  · rw [if_pos he] at hs
    simp [sentPolicy] at hs
  · rw [if_neg he] at hs
    cases hcl : env.clientResult with
    | error e => rw [hcl] at hs; simp [sentPolicy] at hs
    | ok u =>
      rw [hcl] at hs
      rw [hp] at hs
      cases hpc : ctx.pctx with
      | none => rw [hpc] at hs; simp [sentPolicy] at hs
      | some b =>
        rw [hpc] at hs
        cases b with
        | sshHost =>
          cases hl : ctx.lctx with
          | none => rw [hl] at hs; simp [sentPolicy] at hs
          | some ls =>
            rw [hl] at hs
            cases ls with
            | allowList =>
              rw [sentPolicy_pushUpdate] at hs
              obtain rfl : _ = d := Option.some_injective _ hs
              refine ⟨.sshHost, .allowList, .sshHostAllowPrincipalRegex, rfl, rfl, rfl, ?_, ?_⟩
              · simp [getField]
              · intro f hf
                cases f <;> first | (exact absurd rfl hf) | simp [getField]
            | denyList =>
              rw [sentPolicy_pushUpdate] at hs
              obtain rfl : _ = d := Option.some_injective _ hs
              refine ⟨.sshHost, .denyList, .sshHostDenyPrincipalRegex, rfl, rfl, rfl, ?_, ?_⟩
              · simp [getField]
              · intro f hf
                cases f <;> first | (exact absurd rfl hf) | simp [getField]
        | sshUser =>
          cases hl : ctx.lctx with
          | none => rw [hl] at hs; simp [sentPolicy] at hs
          | some ls =>
            rw [hl] at hs
            cases ls with
            | allowList =>
              rw [sentPolicy_pushUpdate] at hs
              obtain rfl : _ = d := Option.some_injective _ hs
              refine ⟨.sshUser, .allowList, .sshUserAllowPrincipalRegex, rfl, rfl, rfl, ?_, ?_⟩
              · simp [getField]
              · intro f hf
                cases f <;> first | (exact absurd rfl hf) | simp [getField]
            | denyList =>
              rw [sentPolicy_pushUpdate] at hs
              obtain rfl : _ = d := Option.some_injective _ hs
              refine ⟨.sshUser, .denyList, .sshUserDenyPrincipalRegex, rfl, rfl, rfl, ?_, ?_⟩
              · simp [getField]
              · intro f hf
                cases f <;> first | (exact absurd rfl hf) | simp [getField]
        | x509 => simp [sentPolicy] at hs

/-- C10: whenever one of the six actions passes a document to
updatePolicy, that document agrees with the retrieved policy on every
rule-list field except the single field selected by the active branch,
the active list and the command's pattern kind, which holds exactly the
add-or-remove result; and the eighteen rule-list fields determine the
whole document. -/
theorem c10_single_field_frame :
    (∀ (env : Env) (ctx : ActionCtx) (policy d : Policy),
      env.policyResult = .ok policy →
      sentPolicy (commonNameRegexAction env ctx) = some d →
      ∃ b l fid, ctx.pctx = some b ∧ ctx.lctx = some l ∧ cnRegexTarget b l = some fid ∧
        getField d fid = addOrRemoveArguments (getField policy fid) ctx.args ctx.remove ∧
        ∀ f, f ≠ fid → getField d f = getField policy f) ∧
    (∀ (env : Env) (ctx : ActionCtx) (policy d : Policy),
      env.policyResult = .ok policy →
      sentPolicy (uriConstraintAction env ctx) = some d →
      ∃ b l fid, ctx.pctx = some b ∧ ctx.lctx = some l ∧ uriConstraintTarget b l = some fid ∧
        getField d fid = addOrRemoveArguments (getField policy fid) ctx.args ctx.remove ∧
        ∀ f, f ≠ fid → getField d f = getField policy f) ∧
    (∀ (env : Env) (ctx : ActionCtx) (policy d : Policy),
      env.policyResult = .ok policy →
      sentPolicy (uriRegexAction env ctx) = some d →
      ∃ b l fid, ctx.pctx = some b ∧ ctx.lctx = some l ∧ uriRegexTarget b l = some fid ∧
        getField d fid = addOrRemoveArguments (getField policy fid) ctx.args ctx.remove ∧
        ∀ f, f ≠ fid → getField d f = getField policy f) ∧
    (∀ (env : Env) (ctx : ActionCtx) (policy d : Policy),
      env.policyResult = .ok policy →
      sentPolicy (emailRegexAction env ctx) = some d →
      ∃ b l fid, ctx.pctx = some b ∧ ctx.lctx = some l ∧ emailRegexTarget b l = some fid ∧
        getField d fid = addOrRemoveArguments (getField policy fid) ctx.args ctx.remove ∧
        ∀ f, f ≠ fid → getField d f = getField policy f) ∧
    (∀ (env : Env) (ctx : ActionCtx) (policy d : Policy),
      env.policyResult = .ok policy →
      sentPolicy (dnsRegexAction env ctx) = some d →
      ∃ b l fid, ctx.pctx = some b ∧ ctx.lctx = some l ∧ dnsRegexTarget b l = some fid ∧
        getField d fid = addOrRemoveArguments (getField policy fid) ctx.args ctx.remove ∧
        ∀ f, f ≠ fid → getField d f = getField policy f) ∧
    (∀ (env : Env) (ctx : ActionCtx) (policy d : Policy),
      env.policyResult = .ok policy →
      sentPolicy (principalRegexAction env ctx) = some d →
      ∃ b l fid, ctx.pctx = some b ∧ ctx.lctx = some l ∧ principalRegexTarget b l = some fid ∧
        getField d fid = addOrRemoveArguments (getField policy fid) ctx.args ctx.remove ∧
        ∀ f, f ≠ fid → getField d f = getField policy f) ∧
    (∀ p q : Policy, (∀ f, getField p f = getField q f) → p = q) :=
  ⟨cnRegex_frame, uriConstraint_frame, uriRegex_frame, emailRegex_frame, dnsRegex_frame,
   principalRegex_frame, getField_ext⟩

/-- Witness for C10: the concrete successful cn-regex invocation on the
X.509 allow branch pushes exactly the sample document, and the frame
conclusion holds there. -/
theorem c10_single_field_frame_witness :
    envOk.policyResult = .ok {} ∧
    sentPolicy (commonNameRegexAction envOk ctxX509Allow) = some samplePushedDoc ∧
    (∃ b l fid, ctxX509Allow.pctx = some b ∧ ctxX509Allow.lctx = some l ∧
      cnRegexTarget b l = some fid ∧
      getField samplePushedDoc fid =
        addOrRemoveArguments (getField {} fid) ctxX509Allow.args ctxX509Allow.remove ∧
      ∀ f, f ≠ fid → getField samplePushedDoc f = getField {} f) :=
  ⟨rfl, by decide,
   c10_single_field_frame.1 envOk ctxX509Allow {} samplePushedDoc rfl (by decide)⟩

end StepPolicy
